import Mathlib

/-!
# Verification of the deskbird CLI core (shallow embedding)

This file embeds the decision logic of the deskbird command-line client
(`src/cli.ts`, `src/api.ts`, `src/types.ts`) in Lean 4 and proves properties
of it: date/time normalization (`parseDate`, `parseTime`), resource
resolution, the API client's error classification and pagination handling,
and the book/cancel/my/checkin workflows modelled as effect traces.

Library and runtime behaviour that the TypeScript source calls but does not
define (the ECMAScript `Date` constructor, `parseInt`, `date-fns` helpers) is
modelled explicitly; each such definition carries a doc comment stating what
it models.
-/

set_option maxRecDepth 8000

deriving instance DecidableEq for Except

namespace Deskbird

/-! ## Calendar dates -/

/-- A calendar date as year/month/day; month is 1-based (1 = January). -/
structure CalDate where
  year : Int
  month : Nat
  day : Nat
deriving DecidableEq, Repr

/-- Gregorian leap-year rule (as implemented by the ECMAScript `Date` object
and `date-fns`). -/
def isLeap (y : Int) : Bool :=
  (y % 4 == 0 && y % 100 != 0) || (y % 400 == 0)

/-- Number of days in a month of a given year. -/
def daysInMonth (y : Int) (m : Nat) : Nat :=
  if m = 2 then (if isLeap y then 29 else 28)
  else if m = 4 ∨ m = 6 ∨ m = 9 ∨ m = 11 then 30
  else 31

/-- Successor day in the Gregorian calendar. -/
def nextDay (d : CalDate) : CalDate :=
  if d.day < daysInMonth d.year d.month then ⟨d.year, d.month, d.day + 1⟩
  else if d.month < 12 then ⟨d.year, d.month + 1, 1⟩
  else ⟨d.year + 1, 1, 1⟩

/-- Predecessor day in the Gregorian calendar. -/
def prevDay (d : CalDate) : CalDate :=
  if 1 < d.day then ⟨d.year, d.month, d.day - 1⟩
  else if 1 < d.month then ⟨d.year, d.month - 1, daysInMonth d.year (d.month - 1)⟩
  else ⟨d.year - 1, 12, 31⟩

/-- Modelled from the spec: `date-fns` `addDays(date, n)` for a non-negative
number of days, i.e. the `n`-fold calendar successor. The CLI only ever adds
non-negative day counts (1 for "tomorrow", N for the `my` range). -/
def addDaysDate (d : CalDate) (n : Nat) : CalDate :=
  nextDay^[n] d

/-! ## Digits and small string helpers

The embedding works on `List Char` so that every operation reduces in the
kernel; `String` values appear only at the boundary. -/

def isDigitChar (c : Char) : Bool :=
  '0' ≤ c && c ≤ '9'

/-- Numeric value of a decimal digit character (callers guard with
`isDigitChar`; non-digits are never reached). -/
def digitVal (c : Char) : Nat :=
  match c with
  | '0' => 0 | '1' => 1 | '2' => 2 | '3' => 3 | '4' => 4
  | '5' => 5 | '6' => 6 | '7' => 7 | '8' => 8 | _ => 9

def digitChar (n : Nat) : Char :=
  match n with
  | 0 => '0' | 1 => '1' | 2 => '2' | 3 => '3' | 4 => '4'
  | 5 => '5' | 6 => '6' | 7 => '7' | 8 => '8' | _ => '9'

def natToCharsAux : Nat → Nat → List Char
  | 0, _ => []
  | fuel + 1, n =>
    if n < 10 then [digitChar n]
    else natToCharsAux fuel (n / 10) ++ [digitChar (n % 10)]

/-- Decimal digits of a natural number, most significant first. -/
def natToChars (n : Nat) : List Char := natToCharsAux (n + 1) n

/-- Decimal rendering of an integer (used for query-parameter values). -/
def intToChars (i : Int) : List Char :=
  if i < 0 then '-' :: natToChars i.natAbs else natToChars i.natAbs

/-- Zero-pad a number to at least two digits, as `date-fns` `format` does for
`MM`/`dd` and the CLI's two-character zero pad does for times. -/
def pad2Chars (n : Nat) : List Char :=
  if n < 10 then '0' :: natToChars n else natToChars n

/-- Zero-pad a year to at least four digits (`date-fns` `format` token
`yyyy`). Negative years are rendered with a sign; the CLI never reaches
them on the inputs covered here. -/
def padYearChars (y : Int) : List Char :=
  let digits := natToChars y.natAbs
  let padded :=
    if digits.length < 4 then List.replicate (4 - digits.length) '0' ++ digits
    else digits
  if y < 0 then '-' :: padded else padded

/-- Rendering of a date with the `date-fns` format pattern yyyy-MM-dd:
zero-padded ISO calendar-date output. -/
def fmtYMD (d : CalDate) : String :=
  ⟨padYearChars d.year ++ '-' :: pad2Chars d.month ++ '-' :: pad2Chars d.day⟩

/-! ## JavaScript runtime models -/

/-- Modelled from the ECMAScript spec of `parseInt(s, 10)`: skip leading
whitespace, read an optional sign, then a maximal run of decimal digits,
ignoring any trailing characters; `none` (NaN) when no digit is read. -/
def jsParseIntChars (cs : List Char) : Option Int :=
  let trimmed := cs.dropWhile (fun c => c.isWhitespace)
  let (neg, rest) :=
    match trimmed with
    | '-' :: r => (true, r)
    | '+' :: r => (false, r)
    | r => (false, r)
  let digits := rest.takeWhile isDigitChar
  if digits.isEmpty then none
  else
    let n : Nat := digits.foldl (fun acc c => acc * 10 + digitVal c) 0
    some (if neg then -(n : Int) else (n : Int))

def jsParseInt (s : String) : Option Int := jsParseIntChars s.data

/-- Modelled from the ECMAScript spec of `new Date(year, monthIndex, day)`
restricted to its calendar-date observation: a year in [0, 99] is replaced by
1900 + year; the month index is normalized by floor division into [0, 11]
with the quotient carried into the year; the day offsets from the first of
that month, rolling over into adjacent months (day 0 is the last day of the
previous month). A result far outside the representable ECMAScript time
range is invalid (`none`); the guard here is an approximation of that clip,
unreachable for the inputs covered by the claims. -/
def jsMakeDate (y mIdx dd : Int) : Option CalDate :=
  let yAdj : Int := if 0 ≤ y ∧ y ≤ 99 then 1900 + y else y
  let ym : Int := yAdj + mIdx.ediv 12
  let mn : Nat := (mIdx.emod 12).toNat + 1
  if 275760 < ym ∨ ym < -271821 ∨ 400000000 < dd ∨ dd < -400000000 then none
  else if 1 ≤ dd then some (nextDay^[(dd - 1).toNat] ⟨ym, mn, 1⟩)
  else some (prevDay^[(1 - dd).toNat] ⟨ym, mn, 1⟩)

/-- Split a character list on the slash character, keeping empty segments,
as the JavaScript split method with separator "/" does. -/
def splitSlash (cs : List Char) : List (List Char) :=
  match cs with
  | [] => [[]]
  | c :: rest =>
    let tail := splitSlash rest
    if c = '/' then [] :: tail
    else
      match tail with
      | [] => [[c]]
      | p :: ps => (c :: p) :: ps

/-- Modelled from the spec: `date-fns` `parseISO` restricted to the strict
ISO-8601 calendar-date fragment the spec names — exactly `YYYY-MM-DD` with a
four-digit year, two-digit month in [1, 12] and two-digit day within the
month. (`parseISO` also accepts datetime forms the CLI's claims never
exercise; everything else is an invalid date.) -/
def parseISOCalendar (s : String) : Option CalDate :=
  match s.data with
  | [y1, y2, y3, y4, c1, m1, m2, c2, d1, d2] =>
    if isDigitChar y1 && isDigitChar y2 && isDigitChar y3 && isDigitChar y4 &&
       c1 = '-' && isDigitChar m1 && isDigitChar m2 &&
       c2 = '-' && isDigitChar d1 && isDigitChar d2 then
      let y : Nat := ((digitVal y1 * 10 + digitVal y2) * 10 + digitVal y3) * 10 + digitVal y4
      let m : Nat := digitVal m1 * 10 + digitVal m2
      let d : Nat := digitVal d1 * 10 + digitVal d2
      if 1 ≤ m ∧ m ≤ 12 ∧ 1 ≤ d ∧ d ≤ daysInMonth (y : Int) m then
        some ⟨(y : Int), m, d⟩
      else none
    else none
  | _ => none

/-! ## Temporal normalizer (`parseDate`, `parseTime` from `src/cli.ts`) -/

inductive CliError where
  | invalidDate
  | invalidTime
  | resourceNotFound
  | bookingNotFound
deriving DecidableEq, Repr

/-- Embedding of `parseDate` (`src/cli.ts`): empty/"hoy"/"today" is the
current date; "mañana"/"manana"/"tomorrow" is the current date plus one day;
otherwise try ISO parsing; otherwise split on `/` and build a JavaScript
`Date` from day, month − 1 and year (defaulting to the current year when the
third segment is missing or empty); otherwise the invalid-date error.
`today` stands for the date `new Date()` evaluates to. -/
def parseDate (today : CalDate) (dateStr : Option String) : Except CliError String :=
  if dateStr = none ∨ dateStr = some "" ∨ dateStr = some "hoy" ∨ dateStr = some "today" then
    .ok (fmtYMD today)
  else
    match dateStr with
    | none => .ok (fmtYMD today)
    | some s =>
      if s = "mañana" ∨ s = "manana" ∨ s = "tomorrow" then
        .ok (fmtYMD (addDaysDate today 1))
      else
        match parseISOCalendar s with
        | some d => .ok (fmtYMD d)
        | none =>
          let parts := splitSlash s.data
          if 2 ≤ parts.length then
            let day? := jsParseIntChars (parts.headD [])
            let month? := jsParseIntChars (parts.getD 1 [])
            let year? :=
              match parts.getD 2 [] with
              | [] => some today.year
              | ys => jsParseIntChars ys
            match day?, month?, year? with
            | some day, some month, some year =>
              match jsMakeDate year (month - 1) day with
              | some d => .ok (fmtYMD d)
              | none => .error .invalidDate
            | _, _, _ => .error .invalidDate
          else .error .invalidDate

def isHChar (c : Char) : Bool := c = 'h' || c = 'H'
def isSChar (c : Char) : Bool := c = 's' || c = 'S'

/-- The regex `^(\d{1,2})(?:hs?)?$` with the `i` flag from `parseTime`:
one or two digits, optionally followed by `h`/`H`, optionally followed by
`s`/`S`; yields the numeric value of the digit group. -/
def bareHourMatch (cs : List Char) : Option Nat :=
  match cs with
  | [a] => if isDigitChar a then some (digitVal a) else none
  | [a, b] =>
    if isDigitChar a && isDigitChar b then some (digitVal a * 10 + digitVal b)
    else if isDigitChar a && isHChar b then some (digitVal a)
    else none
  | [a, b, c] =>
    if isDigitChar a && isDigitChar b && isHChar c then some (digitVal a * 10 + digitVal b)
    else if isDigitChar a && isHChar b && isSChar c then some (digitVal a)
    else none
  | [a, b, c, d] =>
    if isDigitChar a && isDigitChar b && isHChar c && isSChar d then
      some (digitVal a * 10 + digitVal b)
    else none
  | _ => none

/-- The regex `^(\d{1,2}):(\d{2})$` from `parseTime`: hour of one or two
digits, a colon, exactly two minute digits. -/
def hhmmMatch (cs : List Char) : Option (Nat × Nat) :=
  match cs with
  | [a, c, m1, m2] =>
    if isDigitChar a && c = ':' && isDigitChar m1 && isDigitChar m2 then
      some (digitVal a, digitVal m1 * 10 + digitVal m2)
    else none
  | [a, b, c, m1, m2] =>
    if isDigitChar a && isDigitChar b && c = ':' && isDigitChar m1 && isDigitChar m2 then
      some (digitVal a * 10 + digitVal b, digitVal m1 * 10 + digitVal m2)
    else none
  | _ => none

/-- Embedding of `parseTime` (`src/cli.ts`): absent input passes through as
`none`; a bare hour (optionally suffixed `h`/`hs`, case-insensitively) in
[0, 23] yields `HH:00`; an `HH:MM` with hour in [0, 23] and minute in
[0, 59] yields the zero-padded `HH:MM`; anything else is the invalid-time
error. An in-range bare-hour match returns immediately, so the second
pattern is only consulted when the first fails or is out of range. -/
def parseTime (timeStr : Option String) : Except CliError (Option String) :=
  match timeStr with
  | none => .ok none
  | some s =>
    let viaHHMM : Except CliError (Option String) :=
      match hhmmMatch s.data with
      | some (h, m) =>
        if h ≤ 23 ∧ m ≤ 59 then
          .ok (some ⟨pad2Chars h ++ ':' :: pad2Chars m⟩)
        else .error .invalidTime
      | none => .error .invalidTime
    match bareHourMatch s.data with
    | some h =>
      if h ≤ 23 then .ok (some ⟨pad2Chars h ++ [':', '0', '0']⟩)
      else viaHHMM
    | none => viaHHMM

/-! ## Data model (`src/types.ts`) -/

inductive ResourceType where
  | flexDesk
  | meetingRoom
  | parking
  | other
deriving DecidableEq, Repr

/-- The wire string of a resource type (its TypeScript literal). -/
def ResourceType.toWire : ResourceType → String
  | .flexDesk => "flexDesk"
  | .meetingRoom => "meetingRoom"
  | .parking => "parking"
  | .other => "other"

structure Resource where
  id : String
  name : String
  type : ResourceType
  officeId : String
deriving DecidableEq, Repr

/-- The fields of a `Booking` the CLI workflows consult. Remaining fields
(status, check-in status, anonymity flags, audit timestamps, embedded
summaries) are carried nowhere in the decisions modelled here. -/
structure Booking where
  id : String
  userId : String
  resourceId : String
  officeId : String
  startTime : String
  endTime : String
deriving DecidableEq, Repr

structure CurrentUser where
  id : String
  name : String
deriving DecidableEq, Repr

/-! ## Resource resolution (`resources.find(...)` in `src/cli.ts`)

JavaScript `toLowerCase`/`includes` are modelled by `String.toLower` and
list-infix search on the character data; the deskbird resource names are
plain ASCII, where the two agree. -/

/-- Models JavaScript `toLowerCase` on one character for the ASCII range the
resource names and tokens live in. -/
def charToLower (c : Char) : Char :=
  if 'A' ≤ c && c ≤ 'Z' then Char.ofNat (c.toNat + 32) else c

/-- Lower-cased character data of a string (JavaScript `toLowerCase`). -/
def strToLower (s : String) : List Char := s.data.map charToLower

/-- The predicate of the `resources.find` call shared by the `book`,
`cancel` and `checkin` actions: exact id match, or case-insensitive exact
name match, or case-insensitive substring match on the name — a single
disjunction evaluated per candidate. -/
def matchesToken (tok : String) (r : Resource) : Bool :=
  r.id == tok || strToLower r.name == strToLower tok ||
    decide (strToLower tok <:+: strToLower r.name)

/-- Embedding of the `resources.find` call: the first candidate in input
order satisfying the disjunctive predicate. -/
def findResource (tok : String) (rs : List Resource) : Option Resource :=
  rs.find? (matchesToken tok)

/-- Tiered resolution as the spec describes it (for comparison with
`findResource`): evaluate tier 1 (exact id) over all candidates, then
tier 2 (case-insensitive exact name), then tier 3 (case-insensitive
substring), returning the first tier with a match. -/
def tieredResolve (tok : String) (rs : List Resource) : Option Resource :=
  match rs.find? (fun r => r.id == tok) with
  | some r => some r
  | none =>
    match rs.find? (fun r => strToLower r.name == strToLower tok) with
    | some r => some r
    | none => rs.find? (fun r => decide (strToLower tok <:+: strToLower r.name))

/-! ## API client (`src/api.ts`) -/

/-- Minimal JSON value universe for response bodies. -/
inductive Json where
  | null
  | bool (b : Bool)
  | num (n : Int)
  | str (s : String)
  | arr (xs : List Json)
  | obj (fields : List (String × Json))

/-- An HTTP response as the client observes it: status, status text, the
result of attempting `response.json()` (`none` when the body is not JSON),
and the raw body text. -/
structure HttpResponse where
  status : Nat
  statusText : String
  bodyJson : Option Json
  bodyText : String

/-- Models the ok flag of a Fetch response: status in the range 200–299. -/
def respOk (r : HttpResponse) : Bool :=
  200 ≤ r.status && r.status ≤ 299

/-- The `errorBody` the client attaches to an error: the parsed JSON when
`response.json()` succeeds, the raw text otherwise. -/
inductive ErrBody where
  | json (j : Json)
  | text (s : String)

def errBodyOf (r : HttpResponse) : ErrBody :=
  match r.bodyJson with
  | some j => .json j
  | none => .text r.bodyText

/-- Embedding of the error class of `src/api.ts`: status code, message,
response body. -/
structure DeskbirdAPIError where
  statusCode : Nat
  message : String
  response : ErrBody

/-- The error constructed by `DeskbirdClient.request` for a non-ok
response: the sequential status checks of `src/api.ts` lines 75–89. -/
def classifyError (r : HttpResponse) : DeskbirdAPIError :=
  let body := errBodyOf r
  if r.status = 401 then
    ⟨401, "Invalid API key. Check your DESKBIRD_API_KEY.", body⟩
  else if r.status = 403 then
    ⟨403, "Not authorized to access this resource.", body⟩
  else if r.status = 429 then
    ⟨429, "Rate limit exceeded. Please wait before retrying.", body⟩
  else
    ⟨r.status, "API request failed: " ++ r.statusText, body⟩

/-- The spec's error taxonomy, as a classification of status codes
(`Unauthorized` / `Forbidden` / `RateLimited` / `RequestFailed`). -/
inductive ErrorKind where
  | unauthorized
  | forbidden
  | rateLimited
  | requestFailed
deriving DecidableEq, Repr

def kindOfStatus (status : Nat) : ErrorKind :=
  if status = 401 then .unauthorized
  else if status = 403 then .forbidden
  else if status = 429 then .rateLimited
  else .requestFailed

/-- Outcome of one `request` call given the response the transport returns:
an ok response yields the parsed body, anything else the classified error. -/
def handleResponse (r : HttpResponse) : Except DeskbirdAPIError (Option Json) :=
  if respOk r then .ok r.bodyJson else .error (classifyError r)

/-- One `request` call against a stream of responses the transport would serve to
successive fetches: exactly one `fetch` is issued, consuming exactly the
head of the stream; the remainder is untouched (the client never retries). -/
def requestOnce (responses : List HttpResponse) :
    Option (Except DeskbirdAPIError (Option Json) × List HttpResponse) :=
  match responses with
  | [] => none
  | r :: rest => some (handleResponse r, rest)

/-! ### Pagination and query parameters -/

/-- The paginated envelope `{data, total, limit, offset}`. -/
structure Paginated (α : Type) where
  data : List α
  total : Nat
  limit : Nat
  offset : Nat

/-- Every list operation returns `response.data` and nothing else. -/
def listUnwrap {α : Type} (r : Paginated α) : List α := r.data

def natStr (n : Nat) : String := ⟨natToChars n⟩

/-- JavaScript `x || d` on an optional number: `undefined` and `0` are
falsy, every other number passes through. -/
def jsOrNat (x : Option Nat) (d : Nat) : Nat :=
  match x with
  | some n => if n = 0 then d else n
  | none => d

/-- JavaScript `x || y` on optional strings: `undefined` and `""` are
falsy. -/
def jsOrStr (a b : Option String) : Option String :=
  match a with
  | some s => if s = "" then b else some s
  | none => b

/-- JavaScript default parameter value: applied exactly when the argument
is `undefined`. -/
def jsDefaultNat (x : Option Nat) (d : Nat) : Nat := x.getD d

/-- The query-string assembly of `DeskbirdClient.request`: entries with an
`undefined` value are skipped, the rest are stringified in insertion
order. -/
def buildParams (ps : List (String × Option String)) : List (String × String) :=
  ps.filterMap (fun p => p.2.map (fun v => (p.1, v)))

structure ListResourcesParams where
  officeId : Option String
  zoneId : Option String
  type : Option ResourceType
  limit : Option Nat
  offset : Option Nat
deriving DecidableEq, Repr

structure ListBookingsParams where
  startDate : String
  endDate : String
  userId : Option String
  officeId : Option String
  resourceId : Option String
  zoneId : Option String
  status : Option String
  limit : Option Nat
  offset : Option Nat
deriving DecidableEq, Repr

/-- Query parameters `listOffices` sends: the literal `{ limit: 100 }` —
no offset entry at all. -/
def listOfficesSentParams : List (String × String) :=
  buildParams [("limit", some (natStr 100))]

/-- Query parameters `listResources` sends for the given caller params. -/
def listResourcesSentParams (p : ListResourcesParams) : List (String × String) :=
  buildParams
    [("officeId", p.officeId),
     ("zoneId", p.zoneId),
     ("type", p.type.map ResourceType.toWire),
     ("limit", some (natStr (jsOrNat p.limit 100))),
     ("offset", some (natStr (jsOrNat p.offset 0)))]

/-- Query parameters `listUsers(limit = 100, offset = 0)` sends; the
defaults are JavaScript default parameters, applied on `undefined`. -/
def listUsersSentParams (limit offset : Option Nat) : List (String × String) :=
  buildParams
    [("limit", some (natStr (jsDefaultNat limit 100))),
     ("offset", some (natStr (jsDefaultNat offset 0)))]

/-- Query parameters `listBookings` sends for the given caller params. -/
def listBookingsSentParams (p : ListBookingsParams) : List (String × String) :=
  buildParams
    [("startDate", some p.startDate),
     ("endDate", some p.endDate),
     ("userId", p.userId),
     ("officeId", p.officeId),
     ("resourceId", p.resourceId),
     ("zoneId", p.zoneId),
     ("status", p.status),
     ("limit", some (natStr (jsOrNat p.limit 100))),
     ("offset", some (natStr (jsOrNat p.offset 0)))]

/-! ## Workflow orchestrator (`src/cli.ts` actions)

Each action is modelled as a pure function of its inputs and of the data the
service returns to its reads, producing the list of API calls it issues (in
order) together with its outcome. `process.exit(1)` paths surface as
`CliError` values. -/

structure CreateBookingRequest where
  userId : String
  resourceId : String
  startTime : String
  endTime : String
deriving DecidableEq, Repr

inductive ApiCall where
  | listResources (p : ListResourcesParams)
  | listBookings (p : ListBookingsParams)
  | createBooking (req : CreateBookingRequest)
  | cancelBooking (bookingId : String)
  | checkIn (bookingId : String)
deriving DecidableEq, Repr

/-- Options of `book <resource>`; `fin` stands for the `--end` option. -/
structure BookOpts where
  date : Option String
  start : Option String
  fin : Option String
  office : Option String

/-- Options shared by `cancel <resource>` and `checkin [resource]`. -/
structure DayOpts where
  date : Option String
  office : Option String

/-- The `book` action (`src/cli.ts` lines 201–239): normalize date and
times (defaulting start to `09:00` and end to `18:00` via `||`), resolve
the office id (`options.office || config.defaultOfficeId`), list the
office's resources, resolve the token with `findResource`, then issue one
`createBooking` whose instants are `date + "T" + time + ":00.000Z"`. -/
def bookAction (today : CalDate) (user : CurrentUser) (defaultOfficeId : Option String)
    (resourceArg : String) (opts : BookOpts) (resources : List Resource) :
    List ApiCall × Except CliError Unit :=
  match parseDate today opts.date with
  | .error e => ([], .error e)
  | .ok date =>
    let officeId := jsOrStr opts.office defaultOfficeId
    match parseTime opts.start with
    | .error e => ([], .error e)
    | .ok st? =>
      match parseTime opts.fin with
      | .error e => ([], .error e)
      | .ok en? =>
        let startTime := st?.getD "09:00"
        let endTime := en?.getD "18:00"
        let calls := [ApiCall.listResources ⟨officeId, none, none, none, none⟩]
        match findResource resourceArg resources with
        | none => (calls, .error .resourceNotFound)
        | some r =>
          let req : CreateBookingRequest :=
            ⟨user.id, r.id,
             date ++ "T" ++ startTime ++ ":00.000Z",
             date ++ "T" ++ endTime ++ ":00.000Z"⟩
          (calls ++ [ApiCall.createBooking req], .ok ())

/-- The `cancel` action (`src/cli.ts` lines 249–289): normalize date,
list the office's resources, resolve the token, fetch the current user's
bookings for that resource on that date, then either fail with
`BookingNotFound` (empty list) or cancel the first returned booking. -/
def cancelAction (today : CalDate) (user : CurrentUser) (defaultOfficeId : Option String)
    (resourceArg : String) (opts : DayOpts) (resources : List Resource)
    (bookings : List Booking) : List ApiCall × Except CliError Unit :=
  match parseDate today opts.date with
  | .error e => ([], .error e)
  | .ok date =>
    let officeId := jsOrStr opts.office defaultOfficeId
    let calls := [ApiCall.listResources ⟨officeId, none, none, none, none⟩]
    match findResource resourceArg resources with
    | none => (calls, .error .resourceNotFound)
    | some r =>
      let q : ListBookingsParams :=
        ⟨date, date, some user.id, none, some r.id, none, none, none, none⟩
      let calls := calls ++ [ApiCall.listBookings q]
      match bookings with
      | [] => (calls, .error .bookingNotFound)
      | b :: _ => (calls ++ [ApiCall.cancelBooking b.id], .ok ())

/-- The date component of a booking, i.e. its start instant split on "T",
first segment. -/
def dateKey (b : Booking) : String :=
  ⟨b.startTime.data.takeWhile (fun c => c ≠ 'T')⟩

/-- One step of the `my` action's `Map`-based grouping: appending to an
existing key's group in place, or appending a new group at the end —
JavaScript `Map` insertion-order semantics. -/
def insertByDate (acc : List (String × List Booking)) (key : String) (b : Booking) :
    List (String × List Booking) :=
  match acc with
  | [] => [(key, [b])]
  | (k, l) :: rest =>
    if k = key then (k, l ++ [b]) :: rest
    else (k, l) :: insertByDate rest key b

/-- The grouping of the `my` action: fold the bookings in returned order
into date-keyed groups. -/
def groupByDate (bookings : List Booking) : List (String × List Booking) :=
  bookings.foldl (fun acc b => insertByDate acc (dateKey b) b) []

/-- Chronological strict order on calendar dates. -/
def calLt (a b : CalDate) : Prop :=
  a.year < b.year ∨ (a.year = b.year ∧
    (a.month < b.month ∨ (a.month = b.month ∧ a.day < b.day)))

instance (a b : CalDate) : Decidable (calLt a b) := by
  unfold calLt
  infer_instance

/-- The distinct values of a list in order of first occurrence — the key
order a JavaScript `Map` ends up with after inserting the list left to
right. -/
def firstOccKeys (l : List String) : List String :=
  l.foldl (fun acc k => if k ∈ acc then acc else acc ++ [k]) []

/-- Extension of `addDaysDate` to a possibly negative integer day count (the `my` action
adds `parseInt(options.days, 10)`, which a caller could make negative). -/
def addDaysInt (d : CalDate) (i : Int) : CalDate :=
  if 0 ≤ i then nextDay^[i.toNat] d else prevDay^[(-i).toNat] d

/-- The `my` action (`src/cli.ts` lines 298–339): list the current user's
bookings from today through today plus `parseInt(options.days)` days
(commander supplies the default string `"14"`), then group them by the date
component of their start instant in `Map` insertion order. A `days` value
that does not parse as a number makes `format(addDays(...))` throw
(modelled as the invalid-date error). -/
def myAction (today : CalDate) (user : CurrentUser) (daysStr : String)
    (bookings : List Booking) :
    List ApiCall × Except CliError (List (String × List Booking)) :=
  match jsParseInt daysStr with
  | none => ([], .error .invalidDate)
  | some n =>
    let endDate := fmtYMD (addDaysInt today n)
    let q : ListBookingsParams :=
      ⟨fmtYMD today, endDate, some user.id, none, none, none, none, none, none⟩
    ([ApiCall.listBookings q], .ok (groupByDate bookings))

/-- The `checkin` action (`src/cli.ts` lines 395–435): normalize date,
fetch the current user's bookings for the day and office; when a resource
token was supplied, additionally list resources and — only if the token
resolves — filter the bookings to that resource (an unresolved token is
silently ignored); then either fail with `BookingNotFound` (empty list) or
check in the first remaining booking. -/
def checkinAction (today : CalDate) (user : CurrentUser) (defaultOfficeId : Option String)
    (resourceArg : Option String) (opts : DayOpts) (bookings : List Booking)
    (resources : List Resource) : List ApiCall × Except CliError Unit :=
  match parseDate today opts.date with
  | .error e => ([], .error e)
  | .ok date =>
    let officeId := jsOrStr opts.office defaultOfficeId
    let q : ListBookingsParams :=
      ⟨date, date, some user.id, officeId, none, none, none, none, none⟩
    let calls := [ApiCall.listBookings q]
    let (filtered, calls) :=
      match resourceArg with
      | none => (bookings, calls)
      | some tok =>
        let calls := calls ++ [ApiCall.listResources ⟨officeId, none, none, none, none⟩]
        match findResource tok resources with
        | some r => (bookings.filter (fun b => b.resourceId == r.id), calls)
        | none => (bookings, calls)
    match filtered with
    | [] => (calls, .error .bookingNotFound)
    | b :: _ => (calls ++ [ApiCall.checkIn b.id], .ok ())

/-! ## Theorems -/

/-- C2: for every non-success HTTP response from any endpoint, the client
raises exactly one error determined by the status code — 401 Unauthorized,
403 Forbidden, 429 RateLimited, any other non-2xx RequestFailed — carrying
that status code and the response body (parsed JSON when possible, raw text
otherwise), and the request is not retried: exactly one response is consumed
from the transport stream and the rest is left untouched. -/
theorem C2_error_classification (r : HttpResponse) (rest : List HttpResponse)
    (h : respOk r = false) :
    requestOnce (r :: rest) = some (.error (classifyError r), rest) ∧
    (classifyError r).statusCode = r.status ∧
    (classifyError r).response = errBodyOf r ∧
    (∀ j, r.bodyJson = some j → (classifyError r).response = .json j) ∧
    (r.bodyJson = none → (classifyError r).response = .text r.bodyText) ∧
    (r.status = 401 → kindOfStatus r.status = .unauthorized ∧
      (classifyError r).message = "Invalid API key. Check your DESKBIRD_API_KEY.") ∧
    (r.status = 403 → kindOfStatus r.status = .forbidden ∧
      (classifyError r).message = "Not authorized to access this resource.") ∧
    (r.status = 429 → kindOfStatus r.status = .rateLimited ∧
      (classifyError r).message = "Rate limit exceeded. Please wait before retrying.") ∧
    (r.status ≠ 401 → r.status ≠ 403 → r.status ≠ 429 →
      kindOfStatus r.status = .requestFailed ∧
      (classifyError r).message = "API request failed: " ++ r.statusText) := by
  refine ⟨by simp [requestOnce, handleResponse, h], ?_, ?_, ?_, ?_, ?_, ?_, ?_, ?_⟩
  · simp only [classifyError]
    split_ifs <;> simp_all
  · simp only [classifyError]
    split_ifs <;> rfl
  · intro j hj
    simp only [classifyError, errBodyOf, hj]
    split_ifs <;> rfl
  · intro hj
    simp only [classifyError, errBodyOf, hj]
    split_ifs <;> rfl
  · intro h1
    exact ⟨by simp [kindOfStatus, h1], by simp [classifyError, h1]⟩
  · intro h2
    by_cases h1 : r.status = 401
    · omega
    · exact ⟨by simp [kindOfStatus, h1, h2], by simp [classifyError, h1, h2]⟩
  · intro h3
    by_cases h1 : r.status = 401
    · omega
    · by_cases h2 : r.status = 403
      · omega
      · exact ⟨by simp [kindOfStatus, h1, h2, h3], by simp [classifyError, h1, h2, h3]⟩
  · intro h1 h2 h3
    exact ⟨by simp [kindOfStatus, h1, h2, h3], by simp [classifyError, h1, h2, h3]⟩

/-- Witness for C2 at a concrete 429 response with a non-JSON body. -/
theorem C2_error_classification_witness :
    requestOnce [⟨429, "Too Many Requests", none, "slow down"⟩] =
      some (.error (classifyError ⟨429, "Too Many Requests", none, "slow down"⟩), []) ∧
    kindOfStatus 429 = .rateLimited ∧
    (classifyError ⟨429, "Too Many Requests", none, "slow down"⟩).message =
      "Rate limit exceeded. Please wait before retrying." :=
  ⟨(C2_error_classification ⟨429, "Too Many Requests", none, "slow down"⟩ [] (by decide)).1,
   ((C2_error_classification ⟨429, "Too Many Requests", none, "slow down"⟩ []
      (by decide)).2.2.2.2.2.2.2.1 rfl).1,
   ((C2_error_classification ⟨429, "Too Many Requests", none, "slow down"⟩ []
      (by decide)).2.2.2.2.2.2.2.1 rfl).2⟩

/-- C7: time normalization — absent input passes through; a bare hour
(optionally suffixed h/hs, matched by the first regex) in [0, 23] yields the
zero-padded HH:00; an HH:MM with hour in [0, 23] and minute in [0, 59]
yields the zero-padded HH:MM; every input matching neither pattern in range
fails with the invalid-time error; including the spec's examples. -/
theorem C7_parseTime :
    parseTime none = .ok none ∧
    (∀ s h, bareHourMatch s.data = some h → h ≤ 23 →
      parseTime (some s) = .ok (some ⟨pad2Chars h ++ [':', '0', '0']⟩)) ∧
    (∀ s h m, bareHourMatch s.data = none → hhmmMatch s.data = some (h, m) →
      h ≤ 23 → m ≤ 59 →
      parseTime (some s) = .ok (some ⟨pad2Chars h ++ ':' :: pad2Chars m⟩)) ∧
    (∀ s, (∀ h, bareHourMatch s.data = some h → 23 < h) →
      (∀ h m, hhmmMatch s.data = some (h, m) → ¬(h ≤ 23 ∧ m ≤ 59)) →
      parseTime (some s) = .error .invalidTime) ∧
    parseTime (some "19") = .ok (some "19:00") ∧
    parseTime (some "9:30") = .ok (some "09:30") ∧
    parseTime (some "25:00") = .error .invalidTime := by
  refine ⟨rfl, ?_, ?_, ?_, by decide, by decide, by decide⟩
  · intro s h hb h23
    simp [parseTime, hb, h23]
  · intro s h m hb hm h23 m59
    simp [parseTime, hb, hm, h23, m59]
  · intro s hbare hmm
    rcases hb : bareHourMatch s.data with _ | h
    · rcases hm : hhmmMatch s.data with _ | ⟨h, m⟩
      · simp [parseTime, hb, hm]
      · simp [parseTime, hb, hm, hmm h m hm]
    · have h23 := hbare h hb
      rcases hm : hhmmMatch s.data with _ | ⟨h2, m2⟩
      · simp [parseTime, hb, hm]
        omega
      · simp [parseTime, hb, hm, hmm h2 m2 hm]
        omega

/-- C1 counterexample: with candidates where the first matches only by
case-insensitive substring (tier 3) and the second matches by exact id
(tier 1), resolution returns the first candidate — tiers are not evaluated
in order, an earlier lower-tier candidate beats a later higher-tier one, and
the result differs from the spec's tiered procedure. -/
theorem C1_counterexample :
    findResource "a1"
        [⟨"x", "Desk a1", .flexDesk, "o1"⟩, ⟨"a1", "Desk 2", .flexDesk, "o1"⟩] =
      some ⟨"x", "Desk a1", .flexDesk, "o1"⟩ ∧
    (⟨"x", "Desk a1", .flexDesk, "o1"⟩ : Resource).id ≠ "a1" ∧
    strToLower "Desk a1" ≠ strToLower "a1" ∧
    (⟨"a1", "Desk 2", .flexDesk, "o1"⟩ : Resource).id = "a1" ∧
    tieredResolve "a1"
        [⟨"x", "Desk a1", .flexDesk, "o1"⟩, ⟨"a1", "Desk 2", .flexDesk, "o1"⟩] =
      some ⟨"a1", "Desk 2", .flexDesk, "o1"⟩ := by
  decide

/-- C1 amended: resolution is a single pass in input order selecting the
first candidate that matches any of the three criteria (exact id,
case-insensitive exact name, case-insensitive name substring), it fails
exactly when no candidate matches any criterion, and the spec's concrete
examples hold (incl. first-in-input-order tie-breaking on ambiguity). -/
theorem C1_resolution :
    (∀ tok rs, findResource tok rs = none ↔ ∀ r ∈ rs, matchesToken tok r = false) ∧
    (∀ tok rs r, findResource tok rs = some r →
      matchesToken tok r = true ∧
      ∃ l1 l2, rs = l1 ++ r :: l2 ∧ ∀ x ∈ l1, matchesToken tok x = false) ∧
    findResource "a1"
        [⟨"a1", "Desk 1", .flexDesk, "o1"⟩, ⟨"a2", "Desk 12", .flexDesk, "o1"⟩] =
      some ⟨"a1", "Desk 1", .flexDesk, "o1"⟩ ∧
    findResource "desk 1"
        [⟨"a1", "Desk 1", .flexDesk, "o1"⟩, ⟨"a2", "Desk 12", .flexDesk, "o1"⟩] =
      some ⟨"a1", "Desk 1", .flexDesk, "o1"⟩ ∧
    findResource "desk"
        [⟨"a1", "Desk 1", .flexDesk, "o1"⟩, ⟨"a2", "Desk 12", .flexDesk, "o1"⟩] =
      some ⟨"a1", "Desk 1", .flexDesk, "o1"⟩ ∧
    findResource "zzz"
        [⟨"a1", "Desk 1", .flexDesk, "o1"⟩, ⟨"a2", "Desk 12", .flexDesk, "o1"⟩] =
      none := by
  refine ⟨?_, ?_, by decide, by decide, by decide, by decide⟩
  · intro tok rs
    simp [findResource, List.find?_eq_none]
  · intro tok rs r h
    rw [findResource, List.find?_eq_some] at h
    obtain ⟨hp, l1, l2, rfl, hl1⟩ := h
    exact ⟨hp, l1, l2, rfl, fun x hx => by simpa using hl1 x hx⟩

/-- Witness for C1 at a concrete ambiguous-substring input. -/
theorem C1_resolution_witness :
    matchesToken "desk" ⟨"a1", "Desk 1", .flexDesk, "o1"⟩ = true ∧
    ∃ l1 l2,
      [(⟨"a1", "Desk 1", .flexDesk, "o1"⟩ : Resource),
       ⟨"a2", "Desk 12", .flexDesk, "o1"⟩] =
        l1 ++ (⟨"a1", "Desk 1", .flexDesk, "o1"⟩ : Resource) :: l2 ∧
      ∀ x ∈ l1, matchesToken "desk" x = false :=
  C1_resolution.2.1 "desk"
    [⟨"a1", "Desk 1", .flexDesk, "o1"⟩, ⟨"a2", "Desk 12", .flexDesk, "o1"⟩]
    ⟨"a1", "Desk 1", .flexDesk, "o1"⟩ (by decide)

/-- Witness for C7 at concrete inputs discharging each hypothesis group. -/
theorem C7_parseTime_witness :
    parseTime (some "7") = .ok (some ⟨pad2Chars 7 ++ [':', '0', '0']⟩) ∧
    parseTime (some "18:45") = .ok (some ⟨pad2Chars 18 ++ ':' :: pad2Chars 45⟩) ∧
    parseTime (some "24hs") = .error .invalidTime :=
  ⟨C7_parseTime.2.1 "7" 7 (by decide) (by decide),
   C7_parseTime.2.2.1 "18:45" 18 45 (by decide) (by decide) (by decide) (by decide),
   C7_parseTime.2.2.2.1 "24hs"
     (fun h hh => by
       rw [show bareHourMatch "24hs".data = some 24 from rfl] at hh
       injection hh with hv
       omega)
     (fun h m hm => by
       rw [show hhmmMatch "24hs".data = none from rfl] at hm
       exact Option.noConfusion hm)⟩

/-- C3: for every book request whose date and times normalize and whose
token resolves, the action issues exactly one create-booking request — after
the single resource listing over all of the office's resources — carrying
the current user's id, the resolved resource's id, and instants assembled as
the normalized date plus the time (defaulted to 09:00 / 18:00 when the
option is absent) with a UTC Z suffix; no bookings are listed beforehand
(no client-side overlap pre-check). -/
theorem C3_book (today : CalDate) (user : CurrentUser) (defaultOfficeId : Option String)
    (resourceArg : String) (opts : BookOpts) (resources : List Resource)
    (date : String) (st en : Option String) (r : Resource)
    (hd : parseDate today opts.date = .ok date)
    (hs : parseTime opts.start = .ok st)
    (he : parseTime opts.fin = .ok en)
    (hr : findResource resourceArg resources = some r) :
    bookAction today user defaultOfficeId resourceArg opts resources =
      ([.listResources ⟨jsOrStr opts.office defaultOfficeId, none, none, none, none⟩,
        .createBooking ⟨user.id, r.id,
          date ++ "T" ++ st.getD "09:00" ++ ":00.000Z",
          date ++ "T" ++ en.getD "18:00" ++ ":00.000Z"⟩], .ok ()) ∧
    (opts.start = none → st = none) ∧
    (opts.fin = none → en = none) ∧
    (∀ p, ApiCall.listBookings p ∉
      (bookAction today user defaultOfficeId resourceArg opts resources).1) ∧
    (bookAction today user defaultOfficeId resourceArg opts resources).1.countP
      (fun c => match c with | .createBooking _ => true | _ => false) = 1 := by
  have hmain : bookAction today user defaultOfficeId resourceArg opts resources =
      ([.listResources ⟨jsOrStr opts.office defaultOfficeId, none, none, none, none⟩,
        .createBooking ⟨user.id, r.id,
          date ++ "T" ++ st.getD "09:00" ++ ":00.000Z",
          date ++ "T" ++ en.getD "18:00" ++ ":00.000Z"⟩], .ok ()) := by
    simp [bookAction, hd, hs, he, hr]
  refine ⟨hmain, ?_, ?_, ?_, ?_⟩
  · intro h0
    rw [h0] at hs
    simp [parseTime] at hs
    exact hs.symm
  · intro h0
    rw [h0] at he
    simp [parseTime] at he
    exact he.symm
  · intro p
    rw [hmain]
    simp
  · rw [hmain]
    rfl

/-- Witness for C3 at a concrete book request with defaulted start time. -/
theorem C3_book_witness :
    bookAction ⟨2026, 10, 11⟩ ⟨"u1", "User"⟩ (some "off1") "desk"
        ⟨some "15/3/2024", none, some "19", none⟩
        [⟨"a1", "Desk 1", .flexDesk, "o1"⟩] =
      ([.listResources ⟨some "off1", none, none, none, none⟩,
        .createBooking ⟨"u1", "a1", "2024-03-15T09:00:00.000Z", "2024-03-15T19:00:00.000Z"⟩],
       .ok ()) := by
  have h := C3_book ⟨2026, 10, 11⟩ ⟨"u1", "User"⟩ (some "off1") "desk"
      ⟨some "15/3/2024", none, some "19", none⟩ [⟨"a1", "Desk 1", .flexDesk, "o1"⟩]
      "2024-03-15" none (some "19:00") ⟨"a1", "Desk 1", .flexDesk, "o1"⟩
      (by decide) (by decide) (by decide) (by decide)
  rw [h.1]
  decide

/-- C4: for every cancel request whose date normalizes and whose token
resolves, the current user's bookings for that resource and date are
fetched; an empty result fails with the booking-not-found error and sends no
cancel request, otherwise exactly the first returned booking is
cancelled. -/
theorem C4_cancel (today : CalDate) (user : CurrentUser) (defaultOfficeId : Option String)
    (resourceArg : String) (opts : DayOpts) (resources : List Resource)
    (bookings : List Booking) (date : String) (r : Resource)
    (hd : parseDate today opts.date = .ok date)
    (hr : findResource resourceArg resources = some r) :
    (bookings = [] →
      cancelAction today user defaultOfficeId resourceArg opts resources bookings =
        ([.listResources ⟨jsOrStr opts.office defaultOfficeId, none, none, none, none⟩,
          .listBookings ⟨date, date, some user.id, none, some r.id, none, none, none, none⟩],
         .error .bookingNotFound) ∧
      ∀ c ∈ (cancelAction today user defaultOfficeId resourceArg opts resources bookings).1,
        ∀ bid, c ≠ ApiCall.cancelBooking bid) ∧
    (∀ b bs, bookings = b :: bs →
      cancelAction today user defaultOfficeId resourceArg opts resources bookings =
        ([.listResources ⟨jsOrStr opts.office defaultOfficeId, none, none, none, none⟩,
          .listBookings ⟨date, date, some user.id, none, some r.id, none, none, none, none⟩,
          .cancelBooking b.id], .ok ())) := by
  constructor
  · intro h0
    subst h0
    have hmain : cancelAction today user defaultOfficeId resourceArg opts resources [] =
        ([.listResources ⟨jsOrStr opts.office defaultOfficeId, none, none, none, none⟩,
          .listBookings ⟨date, date, some user.id, none, some r.id, none, none, none, none⟩],
         .error .bookingNotFound) := by
      simp [cancelAction, hd, hr]
    refine ⟨hmain, ?_⟩
    rw [hmain]
    simp
  · intro b bs h0
    subst h0
    simp [cancelAction, hd, hr]

/-- Witness for C4: empty booking list on one side, one booking on the
other, at concrete inputs. -/
theorem C4_cancel_witness :
    (cancelAction ⟨2026, 10, 11⟩ ⟨"u1", "User"⟩ (some "off1") "desk" ⟨none, none⟩
        [⟨"a1", "Desk 1", .flexDesk, "o1"⟩] [] =
      ([.listResources ⟨some "off1", none, none, none, none⟩,
        .listBookings ⟨"2026-10-11", "2026-10-11", some "u1", none, some "a1",
          none, none, none, none⟩],
       .error .bookingNotFound)) ∧
    (cancelAction ⟨2026, 10, 11⟩ ⟨"u1", "User"⟩ (some "off1") "desk" ⟨none, none⟩
        [⟨"a1", "Desk 1", .flexDesk, "o1"⟩]
        [⟨"b7", "u1", "a1", "off1", "2026-10-11T09:00:00.000Z", "2026-10-11T18:00:00.000Z"⟩] =
      ([.listResources ⟨some "off1", none, none, none, none⟩,
        .listBookings ⟨"2026-10-11", "2026-10-11", some "u1", none, some "a1",
          none, none, none, none⟩,
        .cancelBooking "b7"], .ok ())) := by
  constructor
  · exact ((C4_cancel ⟨2026, 10, 11⟩ ⟨"u1", "User"⟩ (some "off1") "desk" ⟨none, none⟩
      [⟨"a1", "Desk 1", .flexDesk, "o1"⟩] [] "2026-10-11" ⟨"a1", "Desk 1", .flexDesk, "o1"⟩
      (by decide) (by decide)).1 rfl).1
  · exact (C4_cancel ⟨2026, 10, 11⟩ ⟨"u1", "User"⟩ (some "off1") "desk" ⟨none, none⟩
      [⟨"a1", "Desk 1", .flexDesk, "o1"⟩]
      [⟨"b7", "u1", "a1", "off1", "2026-10-11T09:00:00.000Z", "2026-10-11T18:00:00.000Z"⟩]
      "2026-10-11" ⟨"a1", "Desk 1", .flexDesk, "o1"⟩ (by decide) (by decide)).2
      ⟨"b7", "u1", "a1", "off1", "2026-10-11T09:00:00.000Z", "2026-10-11T18:00:00.000Z"⟩ [] rfl

/-- C10: in the check-in use case, a supplied resource token that matches no
resource in the office's list does not fail with a resource-not-found
error: the token is silently ignored — the day's bookings stay unfiltered —
and the first booking of the unfiltered list is checked in. -/
theorem C10_checkin (today : CalDate) (user : CurrentUser) (defaultOfficeId : Option String)
    (tok : String) (opts : DayOpts) (bookings : List Booking) (resources : List Resource)
    (date : String) (b : Booking) (bs : List Booking)
    (hd : parseDate today opts.date = .ok date)
    (hnone : findResource tok resources = none)
    (hb : bookings = b :: bs) :
    checkinAction today user defaultOfficeId (some tok) opts bookings resources =
      ([.listBookings ⟨date, date, some user.id, jsOrStr opts.office defaultOfficeId,
          none, none, none, none, none⟩,
        .listResources ⟨jsOrStr opts.office defaultOfficeId, none, none, none, none⟩,
        .checkIn b.id], .ok ()) ∧
    (checkinAction today user defaultOfficeId (some tok) opts bookings resources).2 ≠
      .error .resourceNotFound := by
  subst hb
  have hmain : checkinAction today user defaultOfficeId (some tok) opts (b :: bs) resources =
      ([.listBookings ⟨date, date, some user.id, jsOrStr opts.office defaultOfficeId,
          none, none, none, none, none⟩,
        .listResources ⟨jsOrStr opts.office defaultOfficeId, none, none, none, none⟩,
        .checkIn b.id], .ok ()) := by
    simp [checkinAction, hd, hnone]
  exact ⟨hmain, by rw [hmain]; simp⟩

/-- Witness for C10: an unmatched token at a concrete check-in. -/
theorem C10_checkin_witness :
    checkinAction ⟨2026, 10, 11⟩ ⟨"u1", "User"⟩ (some "off1") (some "zzz") ⟨none, none⟩
        [⟨"b9", "u1", "a1", "off1", "2026-10-11T09:00:00.000Z", "2026-10-11T18:00:00.000Z"⟩]
        [⟨"a1", "Desk 1", .flexDesk, "o1"⟩] =
      ([.listBookings ⟨"2026-10-11", "2026-10-11", some "u1", some "off1",
          none, none, none, none, none⟩,
        .listResources ⟨some "off1", none, none, none, none⟩,
        .checkIn "b9"], .ok ()) :=
  (C10_checkin ⟨2026, 10, 11⟩ ⟨"u1", "User"⟩ (some "off1") "zzz" ⟨none, none⟩
    [⟨"b9", "u1", "a1", "off1", "2026-10-11T09:00:00.000Z", "2026-10-11T18:00:00.000Z"⟩]
    [⟨"a1", "Desk 1", .flexDesk, "o1"⟩] "2026-10-11"
    ⟨"b9", "u1", "a1", "off1", "2026-10-11T09:00:00.000Z", "2026-10-11T18:00:00.000Z"⟩ []
    (by decide) (by decide) rfl).1

/-- C8 counterexample: the list-offices operation does not send an offset
parameter at all — its query contains exactly the limit entry — refuting
that every list operation sends limit 100 and offset 0 when the caller
leaves pagination unspecified. -/
theorem C8_counterexample :
    listOfficesSentParams = [("limit", "100")] ∧
    "offset" ∉ listOfficesSentParams.map Prod.fst := by
  decide

/-- C8 amended: every list operation returns only the data sequence of the
paginated envelope, discarding the envelope fields; list-resources,
list-users and list-bookings send limit 100 and offset 0 when the caller
leaves them unspecified; list-offices always sends limit 100 and no offset
parameter. -/
theorem C8_pagination :
    (∀ (α : Type) (d : List α) (t l o t2 l2 o2 : Nat),
      listUnwrap ⟨d, t, l, o⟩ = d ∧
      listUnwrap ⟨d, t, l, o⟩ = listUnwrap ⟨d, t2, l2, o2⟩) ∧
    (∀ off zone ty,
      ("limit", "100") ∈ listResourcesSentParams ⟨off, zone, ty, none, none⟩ ∧
      ("offset", "0") ∈ listResourcesSentParams ⟨off, zone, ty, none, none⟩) ∧
    listUsersSentParams none none = [("limit", "100"), ("offset", "0")] ∧
    (∀ sd ed u o rid z st,
      ("limit", "100") ∈ listBookingsSentParams ⟨sd, ed, u, o, rid, z, st, none, none⟩ ∧
      ("offset", "0") ∈ listBookingsSentParams ⟨sd, ed, u, o, rid, z, st, none, none⟩) ∧
    listOfficesSentParams = [("limit", "100")] := by
  refine ⟨?_, ?_, by decide, ?_, by decide⟩
  · intro α d t l o t2 l2 o2
    exact ⟨rfl, rfl⟩
  · intro off zone ty
    cases off <;> cases zone <;> cases ty <;>
      simp [listResourcesSentParams, buildParams, jsOrNat,
        (by decide : natStr 100 = "100"), (by decide : natStr 0 = "0")]
  · intro sd ed u o rid z st
    cases u <;> cases o <;> cases rid <;> cases z <;> cases st <;>
      simp [listBookingsSentParams, buildParams, jsOrNat,
        (by decide : natStr 100 = "100"), (by decide : natStr 0 = "0")]

/-! ### Grouping lemmas for the `my` action -/

theorem firstOccKeys_step (l : List String) (a : String) :
    firstOccKeys (l ++ [a]) =
      if a ∈ firstOccKeys l then firstOccKeys l else firstOccKeys l ++ [a] := by
  simp [firstOccKeys, List.foldl_append]

theorem mem_firstOccKeys (l : List String) : ∀ a, a ∈ firstOccKeys l ↔ a ∈ l := by
  induction l using List.reverseRecOn with
  | nil => intro a; simp [firstOccKeys]
  | append_singleton xs x ih =>
    intro a
    rw [firstOccKeys_step]
    by_cases hx : x ∈ firstOccKeys xs
    · have hx2 : x ∈ xs := (ih x).mp hx
      simp only [if_pos hx, List.mem_append, List.mem_singleton, ih a]
      constructor
      · exact Or.inl
      · rintro (h | rfl)
        · exact h
        · exact hx2
    · simp only [if_neg hx, List.mem_append, List.mem_singleton, ih a]

theorem nodup_firstOccKeys (l : List String) : (firstOccKeys l).Nodup := by
  induction l using List.reverseRecOn with
  | nil => simp [firstOccKeys]
  | append_singleton xs x ih =>
    rw [firstOccKeys_step]
    by_cases hx : x ∈ firstOccKeys xs
    · simpa [hx] using ih
    · simp [hx, List.nodup_append, ih]

theorem insertByDate_not_mem (keys : List String) (f : String → List Booking)
    (key : String) (b : Booking) (h : key ∉ keys) :
    insertByDate (keys.map (fun k => (k, f k))) key b =
      keys.map (fun k => (k, f k)) ++ [(key, [b])] := by
  induction keys with
  | nil => rfl
  | cons k ks ih =>
    have hk : k ≠ key := by rintro rfl; exact h (List.mem_cons_self _ _)
    have h2 : key ∉ ks := fun hm => h (List.mem_cons_of_mem _ hm)
    simp [insertByDate, hk, ih h2]

theorem insertByDate_mem (keys : List String) (f : String → List Booking)
    (key : String) (b : Booking) (hnd : keys.Nodup) (h : key ∈ keys) :
    insertByDate (keys.map (fun k => (k, f k))) key b =
      keys.map (fun k => (k, if k = key then f k ++ [b] else f k)) := by
  induction keys with
  | nil => cases h
  | cons k ks ih =>
    rcases List.mem_cons.mp h with rfl | hmem
    · have hks : key ∉ ks := (List.nodup_cons.mp hnd).1
      simp only [List.map_cons, insertByDate, if_true]
      congr 1
      apply List.map_congr_left
      intro a ha
      have hak : a ≠ key := fun hak => hks (hak ▸ ha)
      simp [hak]
    · have hk : k ≠ key := by
        rintro rfl
        exact (List.nodup_cons.mp hnd).1 hmem
      simp only [List.map_cons, insertByDate, if_neg hk,
        ih (List.nodup_cons.mp hnd).2 hmem]

theorem groupByDate_concat (bs : List Booking) (b : Booking) :
    groupByDate (bs ++ [b]) = insertByDate (groupByDate bs) (dateKey b) b := by
  simp [groupByDate, List.foldl_append]

theorem groupByDate_eq (bs : List Booking) :
    groupByDate bs =
      (firstOccKeys (bs.map dateKey)).map
        (fun k => (k, bs.filter (fun b => dateKey b == k))) := by
  induction bs using List.reverseRecOn with
  | nil => rfl
  | append_singleton xs x ih =>
    rw [groupByDate_concat, ih, List.map_append,
      show List.map dateKey [x] = [dateKey x] from rfl, firstOccKeys_step]
    by_cases hx : dateKey x ∈ firstOccKeys (xs.map dateKey)
    · rw [if_pos hx, insertByDate_mem _ _ _ _ (nodup_firstOccKeys _) hx]
      apply List.map_congr_left
      intro k hk
      by_cases hkx : k = dateKey x
      · subst hkx
        simp [List.filter_append]
      · have hne : (dateKey x == k) = false := by
          simp [Ne.symm hkx]
        simp [hkx, List.filter_append, hne]
    · rw [if_neg hx, insertByDate_not_mem _ _ _ _ hx, List.map_append]
      congr 1
      · apply List.map_congr_left
        intro k hk
        have hkx : k ≠ dateKey x := fun h => hx (h ▸ hk)
        have hne : (dateKey x == k) = false := by
          simp [Ne.symm hkx]
        simp [List.filter_append, hne]
      · have hxs : dateKey x ∉ xs.map dateKey :=
          fun h => hx ((mem_firstOccKeys _ _).mpr h)
        have hnil : xs.filter (fun b => dateKey b == dateKey x) = [] := by
          rw [List.filter_eq_nil_iff]
          intro a ha
          simp only [beq_iff_eq]
          exact fun h => hxs (h ▸ List.mem_map_of_mem dateKey ha)
        simp [List.filter_append, hnil]

/-- C9 counterexample: when the service returns the later-dated booking
first, the output groups appear with the later calendar date before the
earlier one — groups follow first occurrence in the returned sequence, not
date order. -/
theorem C9_counterexample :
    (myAction ⟨2026, 10, 11⟩ ⟨"u1", "User"⟩ "14"
        [⟨"b2", "u1", "a1", "o1", "2026-10-13T09:00:00.000Z", "e"⟩,
         ⟨"b1", "u1", "a1", "o1", "2026-10-12T09:00:00.000Z", "e"⟩]).2 =
      .ok [("2026-10-13", [⟨"b2", "u1", "a1", "o1", "2026-10-13T09:00:00.000Z", "e"⟩]),
           ("2026-10-12", [⟨"b1", "u1", "a1", "o1", "2026-10-12T09:00:00.000Z", "e"⟩])] ∧
    parseISOCalendar "2026-10-13" = some ⟨2026, 10, 13⟩ ∧
    parseISOCalendar "2026-10-12" = some ⟨2026, 10, 12⟩ ∧
    calLt ⟨2026, 10, 12⟩ ⟨2026, 10, 13⟩ := by
  decide

/-- C9 amended: the `my` request spans today through today plus N days with
N the parsed days option (default string "14", so 14); the listed bookings
are queried for the current user over that range; the output groups the
bookings by the calendar-date component of their start instant — each group
holding exactly that date's bookings in returned order — with groups in
first-occurrence order of the returned sequence (not sorted by date). -/
theorem C9_my :
    (∀ today user bookings,
      myAction today user "14" bookings =
        ([.listBookings ⟨fmtYMD today, fmtYMD (addDaysInt today 14), some user.id,
            none, none, none, none, none, none⟩], .ok (groupByDate bookings))) ∧
    (∀ today user daysStr n bookings, jsParseInt daysStr = some n →
      myAction today user daysStr bookings =
        ([.listBookings ⟨fmtYMD today, fmtYMD (addDaysInt today n), some user.id,
            none, none, none, none, none, none⟩], .ok (groupByDate bookings))) ∧
    (∀ bookings, groupByDate bookings =
      (firstOccKeys (bookings.map dateKey)).map
        (fun k => (k, bookings.filter (fun b => dateKey b == k)))) := by
  refine ⟨?_, ?_, groupByDate_eq⟩
  · intro today user bookings
    simp [myAction, show jsParseInt "14" = some 14 from by decide]
  · intro today user daysStr n bookings h
    simp [myAction, h]

/-- Witness for C9 at a concrete days value. -/
theorem C9_my_witness :
    myAction ⟨2026, 10, 11⟩ ⟨"u1", "User"⟩ "3"
        [⟨"b1", "u1", "a1", "o1", "2026-10-12T09:00:00.000Z", "e"⟩] =
      ([.listBookings ⟨fmtYMD ⟨2026, 10, 11⟩, fmtYMD (addDaysInt ⟨2026, 10, 11⟩ 3),
          some "u1", none, none, none, none, none, none⟩],
       .ok (groupByDate [⟨"b1", "u1", "a1", "o1", "2026-10-12T09:00:00.000Z", "e"⟩])) :=
  C9_my.2.1 ⟨2026, 10, 11⟩ ⟨"u1", "User"⟩ "3" 3
    [⟨"b1", "u1", "a1", "o1", "2026-10-12T09:00:00.000Z", "e"⟩] (by decide)

/-! ### Date lemmas -/

theorem daysInMonth_le (y : Int) (m : Nat) : daysInMonth y m ≤ 31 := by
  unfold daysInMonth
  split_ifs <;> omega

theorem nextDay_iterate_month (y : Int) (m : Nat) :
    ∀ (k d : Nat), 1 ≤ d → d + k ≤ daysInMonth y m →
      nextDay^[k] ⟨y, m, d⟩ = ⟨y, m, d + k⟩ := by
  intro k
  induction k with
  | zero => intro d h1 h2; simp
  | succ n ih =>
    intro d h1 h2
    rw [Function.iterate_succ_apply]
    have hlt : d < daysInMonth y m := by omega
    have hstep : nextDay ⟨y, m, d⟩ = ⟨y, m, d + 1⟩ := by
      simp [nextDay, hlt]
    rw [hstep, ih (d + 1) (by omega) (by omega)]
    congr 1
    omega

/-- A JavaScript date built from an in-range year/month/day is exactly that
calendar date (no two-digit-year shift, no rollover). -/
theorem jsMakeDate_in_range (y : Int) (m dd : Nat)
    (hy1 : 100 ≤ y) (hy2 : y ≤ 9999)
    (hm1 : 1 ≤ m) (hm2 : m ≤ 12)
    (hd1 : 1 ≤ dd) (hd2 : dd ≤ daysInMonth y m) :
    jsMakeDate y ((m : Int) - 1) (dd : Int) = some ⟨y, m, dd⟩ := by
  have hadj : ¬(0 ≤ y ∧ y ≤ 99) := by omega
  have hediv : ((m : Int) - 1).ediv 12 = 0 := by
    apply Int.ediv_eq_zero_of_lt <;> omega
  have hemod : ((m : Int) - 1).emod 12 = (m : Int) - 1 := by
    apply Int.emod_eq_of_lt <;> omega
  have hd31 : dd ≤ 31 := le_trans hd2 (daysInMonth_le y m)
  simp only [jsMakeDate, hediv, hemod, if_neg hadj]
  have hguard : ¬(275760 < y + 0 ∨ y + 0 < -271821 ∨
      400000000 < (dd : Int) ∨ (dd : Int) < -400000000) := by
    omega
  rw [if_neg hguard, if_pos (by omega : (1 : Int) ≤ (dd : Int))]
  have hmn : ((m : Int) - 1).toNat + 1 = m := by omega
  have hk : ((dd : Int) - 1).toNat = dd - 1 := by omega
  rw [hmn, hk, add_zero]
  rw [nextDay_iterate_month y m (dd - 1) 1 (by omega) (by omega),
    show 1 + (dd - 1) = dd from by omega]

/-- The path of `parseDate` through rule 3: a strict ISO calendar date that
is none of the special tokens formats back as itself. -/
theorem parseDate_of_iso (today : CalDate) (s : String) (d : CalDate)
    (hiso : parseISOCalendar s = some d) :
    parseDate today (some s) = .ok (fmtYMD d) := by
  have h1 : s ≠ "" := by
    rintro rfl; rw [show parseISOCalendar "" = none from rfl] at hiso; cases hiso
  have h2 : s ≠ "hoy" := by
    rintro rfl; rw [show parseISOCalendar "hoy" = none from rfl] at hiso; cases hiso
  have h3 : s ≠ "today" := by
    rintro rfl; rw [show parseISOCalendar "today" = none from rfl] at hiso; cases hiso
  have h4 : s ≠ "mañana" := by
    rintro rfl; rw [show parseISOCalendar "mañana" = none from rfl] at hiso; cases hiso
  have h5 : s ≠ "manana" := by
    rintro rfl; rw [show parseISOCalendar "manana" = none from rfl] at hiso; cases hiso
  have h6 : s ≠ "tomorrow" := by
    rintro rfl; rw [show parseISOCalendar "tomorrow" = none from rfl] at hiso; cases hiso
  simp [parseDate, h1, h2, h3, h4, h5, h6, hiso]

/-- The path of `parseDate` through rule 4 with three slash segments: when
no earlier rule matches and day/month/year all parse, the result is the
JavaScript date built from them (or the invalid-date error when that date
is out of the representable range). -/
theorem parseDate_slash3 (today : CalDate) (s : String) (ds ms : List Char)
    (c : Char) (cs : List Char) (dd mm yy : Int)
    (hsplit : splitSlash s.data = [ds, ms, c :: cs])
    (hds : jsParseIntChars ds = some dd)
    (hms : jsParseIntChars ms = some mm)
    (hyv : jsParseIntChars (c :: cs) = some yy)
    (hiso : parseISOCalendar s = none)
    (h1 : s ≠ "") (h2 : s ≠ "hoy") (h3 : s ≠ "today")
    (h4 : s ≠ "mañana") (h5 : s ≠ "manana") (h6 : s ≠ "tomorrow") :
    parseDate today (some s) =
      match jsMakeDate yy (mm - 1) dd with
      | some d => .ok (fmtYMD d)
      | none => .error .invalidDate := by
  simp [parseDate, h1, h2, h3, h4, h5, h6, hiso, hsplit, hds, hms, hyv]

/-- The path of `parseDate` through rule 4 with two slash segments: the
year defaults to the current year. -/
theorem parseDate_slash2 (today : CalDate) (s : String) (ds ms : List Char)
    (dd mm : Int)
    (hsplit : splitSlash s.data = [ds, ms])
    (hds : jsParseIntChars ds = some dd)
    (hms : jsParseIntChars ms = some mm)
    (hiso : parseISOCalendar s = none)
    (h1 : s ≠ "") (h2 : s ≠ "hoy") (h3 : s ≠ "today")
    (h4 : s ≠ "mañana") (h5 : s ≠ "manana") (h6 : s ≠ "tomorrow") :
    parseDate today (some s) =
      match jsMakeDate today.year (mm - 1) dd with
      | some d => .ok (fmtYMD d)
      | none => .error .invalidDate := by
  simp [parseDate, h1, h2, h3, h4, h5, h6, hiso, hsplit, hds, hms]

/-- C5 counterexample: a two-digit year in a D/M/Y input is interpreted by
the JavaScript Date constructor as 1900 + year, so normalizing 15/3/24
yields 1924-03-15 rather than the zero-padded year-24 date the four stated
rules would give. -/
theorem C5_counterexample :
    parseDate ⟨2026, 10, 11⟩ (some "15/3/24") = .ok "1924-03-15" ∧
    fmtYMD ⟨24, 3, 15⟩ = "0024-03-15" ∧
    ("1924-03-15" : String) ≠ "0024-03-15" := by
  decide

/-- C5 amended: date resolution applies the four rules in order with the
first match winning — empty/"hoy"/"today" give the current date;
"mañana"/"manana"/"tomorrow" give the current date plus one day; a strict
ISO calendar date gives that date; D/M or D/M/Y (day first, year defaulting
to the current year) gives that date when day and month are in range and
the year (or the current year for D/M) has at least three digits, a year
value in 0..99 being interpreted as 1900 + year by the Date constructor —
and the output is always a zero-padded YYYY-MM-DD string. -/
theorem C5_normalizeDate :
    (∀ today : CalDate, parseDate today none = .ok (fmtYMD today) ∧
      parseDate today (some "") = .ok (fmtYMD today) ∧
      parseDate today (some "today") = .ok (fmtYMD today) ∧
      parseDate today (some "hoy") = .ok (fmtYMD today)) ∧
    (∀ today : CalDate,
      parseDate today (some "tomorrow") = .ok (fmtYMD (addDaysDate today 1)) ∧
      parseDate today (some "mañana") = .ok (fmtYMD (addDaysDate today 1)) ∧
      parseDate today (some "manana") = .ok (fmtYMD (addDaysDate today 1))) ∧
    (∀ (today : CalDate) (s : String) (d : CalDate), parseISOCalendar s = some d →
      parseDate today (some s) = .ok (fmtYMD d)) ∧
    (∀ (today : CalDate) (s : String) (ds ms : List Char) (c : Char) (cs : List Char)
      (dd mm yy : Int),
      splitSlash s.data = [ds, ms, c :: cs] →
      jsParseIntChars ds = some dd → jsParseIntChars ms = some mm →
      jsParseIntChars (c :: cs) = some yy →
      parseISOCalendar s = none →
      s ≠ "" → s ≠ "hoy" → s ≠ "today" →
      s ≠ "mañana" → s ≠ "manana" → s ≠ "tomorrow" →
      100 ≤ yy → yy ≤ 9999 → 1 ≤ mm → mm ≤ 12 → 1 ≤ dd →
      dd ≤ (daysInMonth yy mm.toNat : Int) →
      parseDate today (some s) = .ok (fmtYMD ⟨yy, mm.toNat, dd.toNat⟩)) ∧
    (∀ (today : CalDate) (s : String) (ds ms : List Char) (dd mm : Int),
      splitSlash s.data = [ds, ms] →
      jsParseIntChars ds = some dd → jsParseIntChars ms = some mm →
      parseISOCalendar s = none →
      s ≠ "" → s ≠ "hoy" → s ≠ "today" →
      s ≠ "mañana" → s ≠ "manana" → s ≠ "tomorrow" →
      100 ≤ today.year → today.year ≤ 9999 → 1 ≤ mm → mm ≤ 12 → 1 ≤ dd →
      dd ≤ (daysInMonth today.year mm.toNat : Int) →
      parseDate today (some s) = .ok (fmtYMD ⟨today.year, mm.toNat, dd.toNat⟩)) ∧
    (∀ today : CalDate, parseDate today (some "15/3/2024") = .ok "2024-03-15") ∧
    (∀ today : CalDate, parseDate today (some "2024-03-15") = .ok "2024-03-15") := by
  have hrule4 : ∀ (y : Int) (dd mm : Int), 100 ≤ y → y ≤ 9999 → 1 ≤ mm → mm ≤ 12 →
      1 ≤ dd → dd ≤ (daysInMonth y mm.toNat : Int) →
      jsMakeDate y (mm - 1) dd = some ⟨y, mm.toNat, dd.toNat⟩ := by
    intro y dd mm hy1 hy2 hm1 hm2 hd1 hd2
    have h := jsMakeDate_in_range y mm.toNat dd.toNat hy1 hy2 (by omega) (by omega)
      (by omega) (by omega)
    rwa [show ((mm.toNat : Int)) - 1 = mm - 1 from by omega,
      show ((dd.toNat : Int)) = dd from by omega] at h
  refine ⟨?_, ?_, parseDate_of_iso, ?_, ?_, ?_, ?_⟩
  · intro today
    refine ⟨rfl, ?_, ?_, ?_⟩ <;> simp [parseDate]
  · intro today
    refine ⟨?_, ?_, ?_⟩ <;> simp [parseDate, addDaysDate]
  · intro today s ds ms c cs dd mm yy hsplit hds hms hyv hiso h1 h2 h3 h4 h5 h6
      hy1 hy2 hm1 hm2 hd1 hd2
    rw [parseDate_slash3 today s ds ms c cs dd mm yy hsplit hds hms hyv hiso
      h1 h2 h3 h4 h5 h6, hrule4 yy dd mm hy1 hy2 hm1 hm2 hd1 hd2]
  · intro today s ds ms dd mm hsplit hds hms hiso h1 h2 h3 h4 h5 h6
      hy1 hy2 hm1 hm2 hd1 hd2
    rw [parseDate_slash2 today s ds ms dd mm hsplit hds hms hiso
      h1 h2 h3 h4 h5 h6, hrule4 today.year dd mm hy1 hy2 hm1 hm2 hd1 hd2]
  · intro today
    rw [parseDate_slash3 today "15/3/2024" ['1', '5'] ['3'] '2' ['0', '2', '4']
      15 3 2024 (by decide) (by decide) (by decide) (by decide) (by decide)
      (by decide) (by decide) (by decide) (by decide) (by decide) (by decide)]
    decide
  · intro today
    rw [parseDate_of_iso today "2024-03-15" ⟨2024, 3, 15⟩ (by decide)]
    decide

/-- Witness for C5 at concrete rule-3 and rule-4 inputs. -/
theorem C5_normalizeDate_witness :
    parseDate ⟨2026, 10, 11⟩ (some "5/4/2024") =
      .ok (fmtYMD ⟨(2024 : Int), (4 : Int).toNat, (5 : Int).toNat⟩) ∧
    parseDate ⟨2026, 10, 11⟩ (some "7/6") =
      .ok (fmtYMD ⟨(⟨2026, 10, 11⟩ : CalDate).year, (6 : Int).toNat, (7 : Int).toNat⟩) ∧
    parseDate ⟨2026, 10, 11⟩ (some "1999-12-31") = .ok (fmtYMD ⟨1999, 12, 31⟩) :=
  ⟨C5_normalizeDate.2.2.2.1 ⟨2026, 10, 11⟩ "5/4/2024" ['5'] ['4'] '2' ['0', '2', '4']
    5 4 2024 (by decide) (by decide) (by decide) (by decide) (by decide) (by decide)
    (by decide) (by decide) (by decide) (by decide) (by decide) (by decide)
    (by decide) (by decide) (by decide) (by decide) (by decide),
   C5_normalizeDate.2.2.2.2.1 ⟨2026, 10, 11⟩ "7/6" ['7'] ['6'] 7 6
    (by decide) (by decide) (by decide) (by decide) (by decide) (by decide)
    (by decide) (by decide) (by decide) (by decide) (by decide) (by decide)
    (by decide) (by decide) (by decide) (by decide),
   C5_normalizeDate.2.2.1 ⟨2026, 10, 11⟩ "1999-12-31" ⟨1999, 12, 31⟩ (by decide)⟩

/-- C6 counterexample: 32/1/2024 matches none of the four rules (January
has 31 days, so day 32 is out of range), yet normalization does not fail
with the invalid-date error — the JavaScript Date constructor rolls the day
over into February. -/
theorem C6_counterexample :
    parseDate ⟨2026, 10, 11⟩ (some "32/1/2024") = .ok "2024-02-01" ∧
    parseDate ⟨2026, 10, 11⟩ (some "32/1/2024") ≠ .error .invalidDate ∧
    daysInMonth 2024 1 = 31 := by
  decide

/-- C6 amended: when no earlier rule matches, normalization fails with the
invalid-date error when the slash-split of the input has fewer than two
segments, or when its day or month segment does not parse as a number; a
D/M(/Y) whose numeric day or month is out of range does not fail but rolls
over into an adjacent date; "not-a-date" fails with the invalid-date
error. -/
theorem C6_invalidDate :
    (∀ today : CalDate, parseDate today (some "not-a-date") = .error .invalidDate) ∧
    (∀ (today : CalDate) (s : String),
      s ≠ "" → s ≠ "hoy" → s ≠ "today" →
      s ≠ "mañana" → s ≠ "manana" → s ≠ "tomorrow" →
      parseISOCalendar s = none → (splitSlash s.data).length < 2 →
      parseDate today (some s) = .error .invalidDate) ∧
    (∀ (today : CalDate) (s : String) (ds ms : List Char) (rest : List (List Char)),
      s ≠ "" → s ≠ "hoy" → s ≠ "today" →
      s ≠ "mañana" → s ≠ "manana" → s ≠ "tomorrow" →
      parseISOCalendar s = none →
      splitSlash s.data = ds :: ms :: rest →
      jsParseIntChars ds = none →
      parseDate today (some s) = .error .invalidDate) ∧
    (∀ (today : CalDate) (s : String) (ds ms : List Char) (rest : List (List Char)),
      s ≠ "" → s ≠ "hoy" → s ≠ "today" →
      s ≠ "mañana" → s ≠ "manana" → s ≠ "tomorrow" →
      parseISOCalendar s = none →
      splitSlash s.data = ds :: ms :: rest →
      jsParseIntChars ms = none →
      parseDate today (some s) = .error .invalidDate) ∧
    (∀ today : CalDate, parseDate today (some "32/1/2024") = .ok "2024-02-01") := by
  refine ⟨?_, ?_, ?_, ?_, ?_⟩
  · intro today
    rfl
  · intro today s h1 h2 h3 h4 h5 h6 hiso hlen
    have hnle : ¬ 2 ≤ (splitSlash s.data).length := by omega
    simp [parseDate, h1, h2, h3, h4, h5, h6, hiso, hnle]
  · intro today s ds ms rest h1 h2 h3 h4 h5 h6 hiso hsplit hds
    rcases rest with _ | ⟨r, rs⟩
    · rcases hms : jsParseIntChars ms with _ | mv <;>
        simp [parseDate, h1, h2, h3, h4, h5, h6, hiso, hsplit, hds, hms]
    · rcases r with _ | ⟨rc, rcs⟩
      · rcases hms : jsParseIntChars ms with _ | mv <;>
          simp [parseDate, h1, h2, h3, h4, h5, h6, hiso, hsplit, hds, hms]
      · rcases hms : jsParseIntChars ms with _ | mv <;>
          rcases hyv : jsParseIntChars (rc :: rcs) with _ | yv <;>
          simp [parseDate, h1, h2, h3, h4, h5, h6, hiso, hsplit, hds, hms, hyv]
  · intro today s ds ms rest h1 h2 h3 h4 h5 h6 hiso hsplit hms
    rcases rest with _ | ⟨r, rs⟩
    · rcases hds : jsParseIntChars ds with _ | dv <;>
        simp [parseDate, h1, h2, h3, h4, h5, h6, hiso, hsplit, hds, hms]
    · rcases r with _ | ⟨rc, rcs⟩
      · rcases hds : jsParseIntChars ds with _ | dv <;>
          simp [parseDate, h1, h2, h3, h4, h5, h6, hiso, hsplit, hds, hms]
      · rcases hds : jsParseIntChars ds with _ | dv <;>
          rcases hyv : jsParseIntChars (rc :: rcs) with _ | yv <;>
          simp [parseDate, h1, h2, h3, h4, h5, h6, hiso, hsplit, hds, hms, hyv]
  · intro today
    rfl

/-- Witness for C6 at concrete failing inputs. -/
theorem C6_invalidDate_witness :
    parseDate ⟨2026, 1, 1⟩ (some "xyz") = .error .invalidDate ∧
    parseDate ⟨2026, 1, 1⟩ (some "aa/3/2024") = .error .invalidDate ∧
    parseDate ⟨2026, 1, 1⟩ (some "3/bb") = .error .invalidDate :=
  ⟨C6_invalidDate.2.1 ⟨2026, 1, 1⟩ "xyz" (by decide) (by decide) (by decide)
    (by decide) (by decide) (by decide) (by decide) (by decide),
   C6_invalidDate.2.2.1 ⟨2026, 1, 1⟩ "aa/3/2024" ['a', 'a'] ['3'] [['2', '0', '2', '4']]
    (by decide) (by decide) (by decide) (by decide) (by decide) (by decide)
    (by decide) (by decide) (by decide),
   C6_invalidDate.2.2.2.1 ⟨2026, 1, 1⟩ "3/bb" ['3'] ['b', 'b'] []
    (by decide) (by decide) (by decide) (by decide) (by decide) (by decide)
    (by decide) (by decide) (by decide)⟩

end Deskbird
